import Mathlib

/-!
# ext-authz: identifier masking, audit log fields and verifier construction

A shallow embedding of `domains/ext-authz/internal/logging/mask.go` and of the
log records that `domains/ext-authz/internal/logging/logger.go` hands to its
`slog` handler, together with a model of the credential verifier whose source is
not part of the repository snapshot.

Go strings are byte sequences: `len` counts bytes and `s[i:j]` slices bytes, so a
string is modelled as a list of bytes. A slice expression whose bounds are out of
range panics in Go; here it evaluates to `none`.
-/

namespace ExtAuthz

/-! ## Go strings -/

/-- One byte of a Go string. -/
abbrev Byte := Fin 256

/-- A Go `string`: an immutable sequence of bytes. -/
abbrev GoString := List Byte

/-- UTF-8 encoding of one code point, as the Go compiler stores a source literal. -/
def utf8EncodeChar (c : Char) : GoString :=
  let n := c.toNat
  if n < 0x80 then [Fin.ofNat n]
  else if n < 0x800 then [Fin.ofNat (0xC0 + n / 64), Fin.ofNat (0x80 + n % 64)]
  else if n < 0x10000 then
    [Fin.ofNat (0xE0 + n / 4096), Fin.ofNat (0x80 + n / 64 % 64), Fin.ofNat (0x80 + n % 64)]
  else
    [Fin.ofNat (0xF0 + n / 262144), Fin.ofNat (0x80 + n / 4096 % 64),
      Fin.ofNat (0x80 + n / 64 % 64), Fin.ofNat (0x80 + n % 64)]

/-- The bytes of a string literal. -/
def lit (s : String) : GoString :=
  (s.data.map utf8EncodeChar).flatten

/-- Go `len(s)`, a signed integer. -/
def len (s : GoString) : Int := (s.length : Int)

/-- Go slice expression `s[lo:hi]`; `none` stands for the run-time panic raised
when the bounds are not `0 ≤ lo ≤ hi ≤ len(s)`. -/
def slice (s : GoString) (lo hi : Int) : Option GoString :=
  if 0 ≤ lo ∧ lo ≤ hi ∧ hi ≤ len s then some ((s.take hi.toNat).drop lo.toNat) else none

/-- Go `strings.HasPrefix(s, p)`: `len(s) >= len(p) && s[:len(p)] == p`. -/
def HasPrefix (s p : GoString) : Bool :=
  decide (len p ≤ len s) && (s.take p.length == p)

/-- Go `strings.TrimPrefix(s, p)`: `s` without the leading `p`, or `s` unchanged
when it does not start with `p`. -/
def TrimPrefix (s p : GoString) : GoString :=
  if HasPrefix s p then s.drop p.length else s

/-! ## `mask.go` -/

/-- Constant `MaskPlaceholder`. -/
def MaskPlaceholder : GoString := lit "***REDACTED***"

/-- Constant `MaskPreserveLen`: characters to preserve at start/end. -/
def MaskPreserveLen : Int := 4

/-- Constant `MaskMinLength`: minimum length for partial masking. -/
def MaskMinLength : Int := 10

/-- Function `maskPartial` of `mask.go`. -/
def maskPartial (s : GoString) : Option GoString :=
  if s = lit "" then some MaskPlaceholder
  else
    let s := TrimPrefix s (lit "Bearer ")
    let s := TrimPrefix s (lit "bearer ")
    if len s < MaskMinLength then some MaskPlaceholder
    else do
      let pre ← slice s 0 MaskPreserveLen
      let suffix ← slice s (len s - MaskPreserveLen) (len s)
      pure (pre ++ lit "..." ++ suffix)

/-- Function `MaskJTI` of `mask.go`. -/
def MaskJTI (jti : GoString) : Option GoString :=
  maskPartial jti

/-- Function `MaskUserID` of `mask.go`. -/
def MaskUserID (userID : GoString) : Option GoString :=
  maskPartial userID

/-- Function `MaskToken` of `mask.go`. -/
def MaskToken (token : GoString) : Option GoString :=
  if token = lit "" then some MaskPlaceholder
  else if len token > MaskPreserveLen then do
    let pre ← slice token 0 MaskPreserveLen
    pure (pre ++ lit "..." ++ MaskPlaceholder)
  else some MaskPlaceholder

/-- The two `strings.TrimPrefix` calls of `maskPartial`, in source order: first
`"Bearer "`, then `"bearer "`. -/
def stripBearer (s : GoString) : GoString :=
  TrimPrefix (TrimPrefix s (lit "Bearer ")) (lit "bearer ")

/-- The last `n` bytes of `s` (all of `s` when it is shorter). -/
def lastBytes (n : Nat) (s : GoString) : GoString :=
  s.drop (s.length - n)

/-- The value `maskPartial` builds from the string `t` left by the two
`TrimPrefix` calls: the placeholder below `MaskMinLength`, otherwise the first
and last `MaskPreserveLen` bytes around `"..."`. -/
def maskStripped (t : GoString) : GoString :=
  if t.length < 10 then MaskPlaceholder else t.take 4 ++ lit "..." ++ lastBytes 4 t

/-! ## `logger.go`: the records handed to the `slog` handler

`logger.go` builds attributes and calls `Info`/`Warn` of a `slog.Logger` whose
handler is `slog.NewJSONHandler(cfg.Output, opts)`. The embedding follows the
code up to the record that the logger passes to `Handle`, including the level
test `Enabled` made before it. What the JSON handler then writes to
`cfg.Output` for a record (key renaming by `ReplaceAttr`, JSON escaping, the
replacement of bytes that are not valid UTF-8 by U+FFFD) is library code and is
not modelled: attribute values below are the byte strings given to the handler,
not the text of the output line. -/

/-- A leaf attribute: `slog.String(key, value)` or the `slog.Float64` that
carries a duration. The float is `float64(micros)/1000`; the quotient is kept
symbolic and only the integer microsecond count is recorded. -/
inductive Leaf where
  | String (key value : GoString)
  | Float64Ms (key : GoString) (micros : Int)
  deriving DecidableEq, Repr

/-- An attribute handed to `slog`: a leaf or a one-level `slog.Group`. -/
inductive Attr where
  | leaf (a : Leaf)
  | Group (key : GoString) (members : List Leaf)
  deriving DecidableEq, Repr

/-- Constant `LevelDebug` (`slog.LevelDebug`). -/
def LevelDebug : Int := -4

/-- Constant `LevelInfo` (`slog.LevelInfo`). -/
def LevelInfo : Int := 0

/-- Constant `LevelWarn` (`slog.LevelWarn`). -/
def LevelWarn : Int := 4

/-- Constant `LevelError` (`slog.LevelError`). -/
def LevelError : Int := 8

/-- Type `Config`; the `Output` writer is left out, since nothing here models
what is written to it. -/
structure Config where
  Level : Int
  Environment : GoString
  deriving DecidableEq, Repr

/-- Type `Logger`: the minimum level of its handler (`opts.Level`) and the
attributes bound so far with `With`, oldest first. -/
structure Logger where
  minLevel : Int
  attrs : List Attr
  deriving DecidableEq, Repr

/-- The `slog.Record` a logging call passes to the handler's `Handle`, with the
attributes bound to the logger: level, message, bound attributes, and the
attributes given to the call. It is the input of the JSON handler, not the line
the handler writes. -/
structure Record where
  level : Int
  msg : GoString
  bound : List Attr
  args : List Attr
  deriving DecidableEq, Repr

/-- Constant `ServiceName`. -/
def ServiceName : GoString := lit "ext-authz"

/-- Constant `ServiceVersion`. -/
def ServiceVersion : GoString := lit "1.0.7"

/-- Constant `ECSVersion`. -/
def ECSVersion : GoString := lit "8.11"

/-- Function `getEnv` of `logger.go`; `value` is what `os.Getenv(key)`
returns. -/
def getEnv (value defaultValue : GoString) : GoString :=
  if value ≠ lit "" then value else defaultValue

/-- Function `DefaultConfig` of `logger.go`; `environmentVar` is the value of
the environment variable `ENVIRONMENT`. -/
def DefaultConfig (environmentVar : GoString) : Config :=
  { Level := LevelInfo, Environment := getEnv environmentVar (lit "dev") }

/-- Function `New` of `logger.go`: a `nil` configuration (`none`) is replaced by
`DefaultConfig()`, the handler takes `cfg.Level` as its minimum level, and the
ECS base fields are bound. The handler's `ReplaceAttr` and its writer act on
the output line only and are not represented. -/
def New (cfg : Option Config) (environmentVar : GoString) : Logger :=
  let cfg :=
    match cfg with
    | none => DefaultConfig environmentVar
    | some c => c
  { minLevel := cfg.Level
    attrs :=
      [ Attr.Group (lit "ecs") [Leaf.String (lit "version") ECSVersion],
        Attr.Group (lit "service")
          [ Leaf.String (lit "name") ServiceName,
            Leaf.String (lit "version") ServiceVersion,
            Leaf.String (lit "environment") cfg.Environment ] ] }

/-- Method `slog.Logger.With`. -/
def Logger.With (l : Logger) (more : List Attr) : Logger :=
  { l with attrs := l.attrs ++ more }

/-- The logging step of `slog.Logger` behind `Info` and `Warn`: when the
handler is enabled for `level` (`level >= minLevel`) one record is passed to
`Handle`, otherwise none. The result lists the records passed. -/
def Logger.log (l : Logger) (level : Int) (msg : GoString) (args : List Attr) : List Record :=
  if l.minLevel ≤ level then [{ level := level, msg := msg, bound := l.attrs, args := args }]
  else []

/-- Method `slog.Logger.Info`. -/
def Logger.Info (l : Logger) (msg : GoString) (args : List Attr) : List Record :=
  l.log LevelInfo msg args

/-- Method `slog.Logger.Warn`. -/
def Logger.Warn (l : Logger) (msg : GoString) (args : List Attr) : List Record :=
  l.log LevelWarn msg args

/-- Method `Logger.WithRequest`. -/
def Logger.WithRequest (l : Logger) (method path host : GoString) : Logger :=
  l.With
    [ Attr.Group (lit "http")
        [Leaf.String (lit "request.method") method, Leaf.String (lit "url.path") path],
      Attr.leaf (Leaf.String (lit "host.name") host) ]

/-- Method `Logger.WithUser`; `none` only if `MaskUserID` panics. -/
def Logger.WithUser (l : Logger) (userID provider : GoString) : Option Logger := do
  let masked ← MaskUserID userID
  pure (l.With
    [ Attr.Group (lit "user") [Leaf.String (lit "id") masked],
      Attr.leaf (Leaf.String (lit "auth.provider") provider) ])

/-- Go `time.Duration.Microseconds`: nanoseconds divided by 1000, truncating
toward zero. -/
def Microseconds (d : Int) : Int := d.tdiv 1000

/-- Method `Logger.WithDuration`; `d` is a `time.Duration` in nanoseconds. -/
def Logger.WithDuration (l : Logger) (d : Int) : Logger :=
  l.With [Attr.Group (lit "event") [Leaf.Float64Ms (lit "duration_ms") (Microseconds d)]]

/-- Method `Logger.AuthAllow`: the records it passes to the handler (`none` only
if a mask function panics). The arguments of `Info`, `MaskJTI(jti)` among them,
are evaluated before the level is tested. -/
def Logger.AuthAllow (l : Logger) (method path host userID provider jti : GoString)
    (duration : Int) : Option (List Record) := do
  let l1 := l.WithRequest method path host
  let l2 ← l1.WithUser userID provider
  let l3 := l2.WithDuration duration
  let masked ← MaskJTI jti
  pure
    (l3.Info (lit "Authorization allowed")
      [ Attr.leaf (Leaf.String (lit "event.action") (lit "authorization")),
        Attr.leaf (Leaf.String (lit "event.outcome") (lit "success")),
        Attr.leaf (Leaf.String (lit "token.jti") masked) ])

/-- Method `Logger.AuthDeny`: the records it passes to the handler; `err` is
`none` for a nil error and `some (err.Error())` otherwise. -/
def Logger.AuthDeny (l : Logger) (method path host reason : GoString) (duration : Int)
    (err : Option GoString) : List Record :=
  let logger := (l.WithRequest method path host).WithDuration duration
  let attrs :=
    [ Attr.leaf (Leaf.String (lit "event.action") (lit "authorization")),
      Attr.leaf (Leaf.String (lit "event.outcome") (lit "failure")),
      Attr.leaf (Leaf.String (lit "event.reason") reason) ]
  let attrs :=
    match err with
    | some m => attrs ++ [Attr.leaf (Leaf.String (lit "error.message") m)]
    | none => attrs
  logger.Warn (lit "Authorization denied") attrs

/-- Method `Logger.AuthDenyWithUser`: the records it passes to the handler
(`none` only if a mask function panics). -/
def Logger.AuthDenyWithUser (l : Logger) (method path host userID jti reason : GoString)
    (duration : Int) (err : Option GoString) : Option (List Record) := do
  let l1 := l.WithRequest method path host
  let l2 ← l1.WithUser userID (lit "")
  let logger := l2.WithDuration duration
  let masked ← MaskJTI jti
  let attrs :=
    [ Attr.leaf (Leaf.String (lit "event.action") (lit "authorization")),
      Attr.leaf (Leaf.String (lit "event.outcome") (lit "failure")),
      Attr.leaf (Leaf.String (lit "event.reason") reason),
      Attr.leaf (Leaf.String (lit "token.jti") masked) ]
  let attrs :=
    match err with
    | some m => attrs ++ [Attr.leaf (Leaf.String (lit "error.message") m)]
    | none => attrs
  pure (logger.Warn (lit "Authorization denied") attrs)

/-- The values of the top-level string attributes named `key` among `attrs`. -/
def stringValues (key : GoString) (attrs : List Attr) : List GoString :=
  attrs.filterMap fun a =>
    match a with
    | Attr.leaf (Leaf.String k v) => if k = key then some v else none
    | _ => none

/-- Every value a record carries under the top-level key `key`, as given to the
handler. -/
def Record.values (r : Record) (key : GoString) : List GoString :=
  stringValues key (r.bound ++ r.args)

/-! ## The credential verifier

`internal/jwt/verify.go` is not part of the snapshot: only its test
(`verify_test.go`) and its caller (`main.go`) are. The definitions of this
section follow section 4.1 of the specification. -/

/-- Modelled from the spec: the whitespace bytes removed by "trimming
whitespace" and separating the entries of a scope claim (missing:
`strings.TrimSpace` and `strings.Fields` as called by `internal/jwt/verify.go`).
These are the ASCII white space characters space, tab, line feed, vertical tab,
form feed and carriage return. -/
def isSpace (b : Byte) : Bool :=
  b.val = 0x20 || b.val = 0x09 || b.val = 0x0A || b.val = 0x0B || b.val = 0x0C || b.val = 0x0D

/-- Modelled from the spec: "after trimming whitespace" (missing: the trimming
done by `NewVerifier` in `internal/jwt/verify.go`). Leading and trailing
whitespace is removed. -/
def TrimSpace (s : GoString) : GoString :=
  ((s.dropWhile isSpace).reverse.dropWhile isSpace).reverse

/-- Modelled from the spec: the `ConfigError` of the contract
`construct(...) → Verifier | ConfigError` (missing: the error values of
`internal/jwt/verify.go`), one value per blank field. -/
inductive ConfigError where
  | BlankSecretKey
  | BlankAlgorithm
  deriving DecidableEq, Repr

/-- Modelled from the spec: `VerifierConfig` of section 3 (missing: type
`Verifier` of `internal/jwt/verify.go`). Instants and durations are integers in
one common unit. -/
structure Verifier where
  secretKey : GoString
  algorithm : GoString
  issuer : GoString
  audience : GoString
  clockSkew : Int
  requiredScope : GoString
  deriving DecidableEq, Repr

/-- Modelled from the spec: `construct` of section 4.1 (missing: function
`NewVerifier` of `internal/jwt/verify.go`). "Construction validates that
`secretKey` and `algorithm`, after trimming whitespace, are non-empty; any other
field may be empty". -/
def NewVerifier (secretKey algorithm issuer audience : GoString) (clockSkew : Int)
    (requiredScope : GoString) : Except ConfigError Verifier :=
  if TrimSpace secretKey = lit "" then Except.error ConfigError.BlankSecretKey
  else if TrimSpace algorithm = lit "" then Except.error ConfigError.BlankAlgorithm
  else
    Except.ok
      { secretKey := secretKey
        algorithm := algorithm
        issuer := issuer
        audience := audience
        clockSkew := clockSkew
        requiredScope := requiredScope }

/-- Modelled from the spec: the denial categories of section 7 that `verify`
can produce (missing: the error values of `internal/jwt/verify.go`). -/
inductive VerificationError where
  | MissingCredential
  | InvalidSignature
  | Expired
  | InvalidIssuer
  | InvalidAudience
  | MissingSubject
  | InsufficientScope
  deriving DecidableEq, Repr

/-- Modelled from the spec: the claim set a token carries, as the JWT library
hands it over once structure and signature are accepted (missing: the claim map
read by `Verify`). An absent string claim is the empty string; `aud` is a single
value or a set of values. -/
structure TokenClaims where
  sub : GoString
  jti : GoString
  exp : Option Int
  iss : GoString
  aud : List GoString
  scope : GoString
  deriving DecidableEq, Repr

/-- Modelled from the spec: `Claims` of section 3 (missing: type `Claims` of
`internal/jwt/verify.go`). -/
structure Claims where
  subject : GoString
  tokenID : GoString
  expiresAt : Int
  issuer : GoString
  audience : List GoString
  scopes : List GoString
  deriving DecidableEq, Repr

/-- Modelled from the spec: ASCII lower-casing of one byte, for the
"case-insensitive `Bearer ` prefix" of step 1 (missing: the prefix test of
`Verify`). -/
def toLowerByte (b : Byte) : Byte :=
  if 0x41 ≤ b.val ∧ b.val ≤ 0x5A then Fin.ofNat (b.val + 0x20) else b

/-- Modelled from the spec: step 1 of `verify`, "strip a case-insensitive
`Bearer ` prefix if present" (missing: the prefix handling of `Verify`). -/
def stripBearerFold (raw : GoString) : GoString :=
  if (raw.take 7).map toLowerByte = lit "bearer " then raw.drop 7 else raw

/-- Worker of `Fields`: `cur` holds the bytes of the field being read, newest
first. -/
def fieldsAux : GoString → GoString → List GoString
  | [], cur => if cur = [] then [] else [cur.reverse]
  | b :: rest, cur =>
    if isSpace b then
      if cur = [] then fieldsAux rest [] else cur.reverse :: fieldsAux rest []
    else fieldsAux rest (b :: cur)

/-- Modelled from the spec: "split the scope claim on whitespace into a set"
(missing: the split done by `Verify`, Go `strings.Fields`). The non-empty
maximal runs of non-whitespace bytes, in order. -/
def Fields (s : GoString) : List GoString :=
  fieldsAux s []

/-- Modelled from the spec: `verify` of section 4.1, steps 1 to 8 in order
(missing: method `Verifier.Verify` of `internal/jwt/verify.go`). `parse key alg
token` stands for the JWT library: it yields the claim set when the structure of
`token` is valid and its signature verifies under `key`/`alg`, and `none`
otherwise; `now` is the current instant. `expiresAt` is required, so a claim
set without `exp` fails step 3. -/
def Verifier.Verify (parse : GoString → GoString → GoString → Option TokenClaims) (now : Int)
    (v : Verifier) (rawHeaderValue : GoString) : Except VerificationError Claims :=
  let token := stripBearerFold rawHeaderValue
  if token = lit "" then Except.error VerificationError.MissingCredential
  else
    match parse v.secretKey v.algorithm token with
    | none => Except.error VerificationError.InvalidSignature
    | some c =>
      match c.exp with
      | none => Except.error VerificationError.Expired
      | some expiresAt =>
        if ¬ now ≤ expiresAt + v.clockSkew then Except.error VerificationError.Expired
        else if v.issuer ≠ lit "" ∧ c.iss ≠ v.issuer then
          Except.error VerificationError.InvalidIssuer
        else if v.audience ≠ lit "" ∧ v.audience ∉ c.aud then
          Except.error VerificationError.InvalidAudience
        else if c.sub = lit "" then Except.error VerificationError.MissingSubject
        else if v.requiredScope ≠ lit "" ∧ v.requiredScope ∉ Fields c.scope then
          Except.error VerificationError.InsufficientScope
        else
          Except.ok
            { subject := c.sub
              tokenID := c.jti
              expiresAt := expiresAt
              issuer := c.iss
              audience := c.aud
              scopes := Fields c.scope }

/-! ### Data of `verify_test.go` -/

/-- The claim set the cases of `TestVerifier_Verify` sign, with the given
`scope`; instants are in seconds and the test's `time.Now()` is `1000`. -/
def testClaims (scope : GoString) : TokenClaims :=
  { sub := lit "user123"
    jti := lit "jti123"
    exp := some (1000 + 3600)
    iss := lit "eco2"
    aud := [lit "eco2-api"]
    scope := scope }

/-- A stand-in for the JWT library in the cases of `TestVerifier_Verify`: the
one token `"header.payload.signature"` is taken as signed with key `"secret"`
under `HS256` and carrying `testClaims scope`; nothing else verifies. -/
def testParse (scope : GoString) (key alg token : GoString) : Option TokenClaims :=
  if key = lit "secret" ∧ alg = lit "HS256" ∧ token = lit "header.payload.signature" then
    some (testClaims scope)
  else none

/-! ## Helper lemmas -/

theorem lit_empty : lit "" = [] := rfl

theorem slice_head (s : GoString) (n : Nat) (h : n ≤ s.length) :
    slice s 0 (n : Int) = some (s.take n) := by
  have h1 : (n : Int) ≤ (s.length : Int) := by exact_mod_cast h
  simp [slice, len, h1]

theorem slice_tail (s : GoString) (n : Nat) (h : n ≤ s.length) :
    slice s (len s - (n : Int)) (len s) = some (lastBytes n s) := by
  have h1 : (n : Int) ≤ (s.length : Int) := by exact_mod_cast h
  have h2 : ((s.length : Int) - (n : Int)).toNat = s.length - n := by omega
  simp [slice, len, h1, h2, lastBytes]

theorem TrimPrefix_suffix (s p : GoString) : TrimPrefix s p <:+ s := by
  unfold TrimPrefix
  split
  · exact List.drop_suffix _ _
  · exact List.suffix_refl _

theorem stripBearer_suffix (s : GoString) : stripBearer s <:+ s :=
  (TrimPrefix_suffix _ _).trans (TrimPrefix_suffix _ _)

theorem stripBearer_length_le (s : GoString) : (stripBearer s).length ≤ s.length :=
  (stripBearer_suffix s).length_le

theorem lastBytes_of_suffix {t s : GoString} (n : Nat) (h : t <:+ s) (hn : n ≤ t.length) :
    lastBytes n t = lastBytes n s := by
  obtain ⟨p, rfl⟩ := h
  unfold lastBytes
  have : (p ++ t).length - n = p.length + (t.length - n) := by
    simp only [List.length_append]; omega
  rw [this, List.drop_append]

/-- What `maskPartial` computes, with the slices resolved: it never panics. -/
theorem maskPartial_eq (s : GoString) : maskPartial s = some (maskStripped (stripBearer s)) := by
  unfold maskPartial maskStripped
  by_cases hs : s = []
  · subst hs
    have : (stripBearer []).length < 10 := by decide
    simp [lit_empty, this]
  · rw [if_neg (by simpa [lit_empty] using hs)]
    show (if len (stripBearer s) < MaskMinLength then some MaskPlaceholder
      else do
        let pre ← slice (stripBearer s) 0 MaskPreserveLen
        let suffix ← slice (stripBearer s) (len (stripBearer s) - MaskPreserveLen)
          (len (stripBearer s))
        pure (pre ++ lit "..." ++ suffix)) = _
    by_cases hl : (stripBearer s).length < 10
    · have : len (stripBearer s) < MaskMinLength := by
        unfold len MaskMinLength; exact_mod_cast hl
      simp [this, hl]
    · have h10 : ¬ len (stripBearer s) < MaskMinLength := by
        unfold len MaskMinLength; exact_mod_cast hl
      have h4 : 4 ≤ (stripBearer s).length := by omega
      have e1 := slice_head (stripBearer s) 4 h4
      have e2 := slice_tail (stripBearer s) 4 h4
      simp only [Nat.cast_ofNat] at e1 e2
      simp [h10, hl, MaskPreserveLen, e1, e2]

theorem TrimPrefix_append (p t : GoString) : TrimPrefix (p ++ t) p = t := by
  simp [TrimPrefix, HasPrefix, len]

theorem TrimPrefix_of_not {s p : GoString} (h : HasPrefix s p = false) : TrimPrefix s p = s := by
  simp [TrimPrefix, h]

theorem stripBearer_of_not {s : GoString} (h1 : HasPrefix s (lit "Bearer ") = false)
    (h2 : HasPrefix s (lit "bearer ") = false) : stripBearer s = s := by
  unfold stripBearer
  rw [TrimPrefix_of_not h1, TrimPrefix_of_not h2]

theorem not_HasPrefix_append {p q : GoString} (t : GoString) (hl : p.length = q.length)
    (hne : p ≠ q) : HasPrefix (p ++ t) q = false := by
  have : List.take q.length (p ++ t) = p := List.take_left' hl
  simp [HasPrefix, this, hne]

theorem stripBearer_Bearer (t : GoString) :
    stripBearer (lit "Bearer " ++ t) = TrimPrefix t (lit "bearer ") := by
  unfold stripBearer
  rw [TrimPrefix_append]

theorem stripBearer_bearer (t : GoString) : stripBearer (lit "bearer " ++ t) = t := by
  unfold stripBearer
  rw [TrimPrefix_of_not (not_HasPrefix_append t (by decide) (by decide)), TrimPrefix_append]

theorem stringValues_nil (key : GoString) : stringValues key [] = [] := rfl

theorem stringValues_append (key : GoString) (xs ys : List Attr) :
    stringValues key (xs ++ ys) = stringValues key xs ++ stringValues key ys := by
  simp [stringValues, List.filterMap_append]

theorem stringValues_cons_string (key k v : GoString) (rest : List Attr) :
    stringValues key (Attr.leaf (Leaf.String k v) :: rest) =
      if k = key then v :: stringValues key rest else stringValues key rest := by
  by_cases h : k = key <;> simp [stringValues, List.filterMap_cons, h]

theorem stringValues_cons_float (key k : GoString) (x : Int) (rest : List Attr) :
    stringValues key (Attr.leaf (Leaf.Float64Ms k x) :: rest) = stringValues key rest := by
  simp [stringValues, List.filterMap_cons]

theorem stringValues_cons_group (key k : GoString) (ms : List Leaf) (rest : List Attr) :
    stringValues key (Attr.Group k ms :: rest) = stringValues key rest := by
  simp [stringValues, List.filterMap_cons]

/-- The base fields bound by `New` are groups: no top-level string attribute. -/
theorem stringValues_New (key : GoString) (cfg : Option Config) (environmentVar : GoString) :
    stringValues key (New cfg environmentVar).attrs = [] := by
  cases cfg <;> simp [New, stringValues_cons_group, stringValues_nil]

theorem stripBearer_eq_of_long {s : GoString} (h10 : 10 ≤ (stripBearer s).length)
    (h11 : s.length ≤ 11) : stripBearer s = s := by
  have hB : HasPrefix s (lit "Bearer ") = false := by
    by_contra hc
    have hc : HasPrefix s (lit "Bearer ") = true := by simpa using hc
    have e : TrimPrefix s (lit "Bearer ") = s.drop 7 := by
      simp [TrimPrefix, hc]; rfl
    have l1 := (TrimPrefix_suffix (TrimPrefix s (lit "Bearer ")) (lit "bearer ")).length_le
    unfold stripBearer at h10
    rw [e] at l1 h10
    rw [List.length_drop] at l1
    omega
  have hb : HasPrefix s (lit "bearer ") = false := by
    by_contra hc
    have hc : HasPrefix s (lit "bearer ") = true := by simpa using hc
    have e : stripBearer s = s.drop 7 := by
      unfold stripBearer
      rw [TrimPrefix_of_not hB]
      simp [TrimPrefix, hc]; rfl
    rw [e, List.length_drop] at h10
    omega
  exact stripBearer_of_not hB hb

theorem not_HasPrefix_of_dots {s p : GoString} (hd : (s.drop 4).take 3 = lit "...")
    (hp : p.length = 7) (hne : p.drop 4 ≠ lit "...") : HasPrefix s p = false := by
  by_contra hc
  have hc : HasPrefix s p = true := by simpa using hc
  have e : s.take 7 = p := by
    simp only [HasPrefix, Bool.and_eq_true, beq_iff_eq, hp] at hc
    exact hc.2
  apply hne
  rw [← e, List.drop_take]
  exact hd

/-- The identifiers `maskPartial` returns unchanged: those of exactly 11 bytes
whose bytes 4 to 6 are `"..."`. -/
theorem maskPartial_fixed_iff (s : GoString) :
    maskPartial s = some s ↔ s.length = 11 ∧ (s.drop 4).take 3 = lit "..." := by
  rw [maskPartial_eq, Option.some.injEq]
  constructor
  · intro h
    by_cases hl : (stripBearer s).length < 10
    · exfalso
      rw [maskStripped, if_pos hl] at h
      subst h
      revert hl
      decide
    · rw [maskStripped, if_neg hl] at h
      have h4 : (lastBytes 4 (stripBearer s)).length = 4 := by
        unfold lastBytes; rw [List.length_drop]; omega
      have ht : ((stripBearer s).take 4).length = 4 := by
        rw [List.length_take]; omega
      have hlen : s.length = 11 := by
        have := congrArg List.length h
        simp only [List.length_append, h4, ht] at this
        have d : (lit "...").length = 3 := rfl
        omega
      have e := @stripBearer_eq_of_long s (by omega) (by omega)
      rw [e] at h ht
      refine ⟨hlen, ?_⟩
      have := congrArg (fun l => (l.drop 4).take 3) h
      simp only [List.append_assoc] at this
      have t3 : List.take 3 (lit "..." ++ lastBytes 4 s) = lit "..." := List.take_left' rfl
      rw [List.drop_left' ht, t3] at this
      exact this.symm
  · rintro ⟨hlen, hd⟩
    have e := stripBearer_of_not
      (not_HasPrefix_of_dots hd (by decide) (by decide) : HasPrefix s (lit "Bearer ") = false)
      (not_HasPrefix_of_dots hd (by decide) (by decide) : HasPrefix s (lit "bearer ") = false)
    rw [e, maskStripped, if_neg (by omega), ← hd]
    have l4 : lastBytes 4 s = (s.drop 4).drop 3 := by
      unfold lastBytes; rw [hlen, List.drop_drop]
    rw [l4, List.append_assoc, List.take_append_drop, List.take_append_drop]

/-! ## Masking identifiers (`maskPartial`, `MaskJTI`, `MaskUserID`) -/

/-- C1, as stated, fails at `"Bearer abcdefghij"`: the identifier has 17 bytes,
`MaskJTI` and `MaskUserID` return `"abcd...ghij"`, and its own first four bytes
around `"..."` would be `"Bear...ghij"`. -/
theorem C1_counterexample :
    MaskMinLength ≤ len (lit "Bearer abcdefghij") ∧
    MaskJTI (lit "Bearer abcdefghij") = some (lit "abcd...ghij") ∧
    MaskUserID (lit "Bearer abcdefghij") = some (lit "abcd...ghij") ∧
    (lit "Bearer abcdefghij").take 4 ++ lit "..." ++ lastBytes 4 (lit "Bearer abcdefghij")
      = lit "Bear...ghij" ∧
    MaskJTI (lit "Bearer abcdefghij") ≠
      some ((lit "Bearer abcdefghij").take 4 ++ lit "..." ++
        lastBytes 4 (lit "Bearer abcdefghij")) := by
  decide

/-- C1, amended: when the identifier `s`, once a leading `"Bearer "` and then a
leading `"bearer "` are removed, still has at least `MaskMinLength` (10) bytes,
`MaskJTI s` and `MaskUserID s` both return the first `MaskPreserveLen` (4) bytes
of the stripped identifier, followed by `"..."`, followed by the last 4 bytes of
`s`; an identifier that starts with neither prefix is left as it is by the
stripping, so for it these are the first and last 4 bytes of `s` itself. -/
theorem mask_long_identifier (s : GoString) (h : MaskMinLength ≤ len (stripBearer s)) :
    MaskJTI s = some ((stripBearer s).take 4 ++ lit "..." ++ lastBytes 4 s) ∧
    MaskUserID s = some ((stripBearer s).take 4 ++ lit "..." ++ lastBytes 4 s) ∧
    (HasPrefix s (lit "Bearer ") = false → HasPrefix s (lit "bearer ") = false →
      stripBearer s = s ∧
      MaskJTI s = some (s.take 4 ++ lit "..." ++ lastBytes 4 s) ∧
      MaskUserID s = some (s.take 4 ++ lit "..." ++ lastBytes 4 s)) := by
  have h10 : 10 ≤ (stripBearer s).length := by
    unfold MaskMinLength len at h; exact_mod_cast h
  have key : maskPartial s = some ((stripBearer s).take 4 ++ lit "..." ++ lastBytes 4 s) := by
    rw [maskPartial_eq, maskStripped, if_neg (by omega),
      lastBytes_of_suffix 4 (stripBearer_suffix s) (by omega)]
  refine ⟨key, key, fun h1 h2 => ?_⟩
  have e := stripBearer_of_not h1 h2
  rw [e] at key
  exact ⟨e, key, key⟩

/-- C1, the two documented examples, obtained from `mask_long_identifier`:
`MaskJTI("abc123def456") = "abc1...f456"` and
`MaskUserID("550e8400-e29b-41d4-a716-446655440000") = "550e...0000"`. -/
theorem mask_long_identifier_witness :
    MaskJTI (lit "abc123def456") = some (lit "abc1...f456") ∧
    MaskUserID (lit "550e8400-e29b-41d4-a716-446655440000") = some (lit "550e...0000") :=
  ⟨(mask_long_identifier (lit "abc123def456") (by decide)).1,
    (mask_long_identifier (lit "550e8400-e29b-41d4-a716-446655440000") (by decide)).2.1⟩

/-- C2: for every identifier `s` shorter than `MaskMinLength` (10), the empty
one included, `MaskJTI s` and `MaskUserID s` are exactly `MaskPlaceholder`; the
result is therefore the same for every such identifier and carries nothing of
`s`. -/
theorem mask_short_identifier (s : GoString) (h : len s < MaskMinLength) :
    MaskJTI s = some MaskPlaceholder ∧ MaskUserID s = some MaskPlaceholder ∧
    MaskPlaceholder = lit "***REDACTED***" ∧
    ∀ s2 : GoString, len s2 < MaskMinLength →
      MaskJTI s2 = MaskJTI s ∧ MaskUserID s2 = MaskUserID s := by
  have short : ∀ t : GoString, len t < MaskMinLength → maskPartial t = some MaskPlaceholder := by
    intro t ht
    have h10 : t.length < 10 := by
      unfold MaskMinLength len at ht; exact_mod_cast ht
    have := stripBearer_length_le t
    rw [maskPartial_eq, maskStripped, if_pos (by omega)]
  refine ⟨short s h, short s h, rfl, fun s2 h2 => ?_⟩
  exact ⟨(short s2 h2).trans (short s h).symm, (short s2 h2).trans (short s h).symm⟩

/-- C2 at the empty identifier and at the token identifier `"jti123"` used by
the tests. -/
theorem mask_short_identifier_witness :
    (MaskJTI (lit "") = some (lit "***REDACTED***") ∧
      MaskUserID (lit "") = some (lit "***REDACTED***")) ∧
    (MaskJTI (lit "jti123") = some (lit "***REDACTED***") ∧
      MaskUserID (lit "jti123") = some (lit "***REDACTED***")) :=
  ⟨⟨(mask_short_identifier (lit "") (by decide)).1,
      (mask_short_identifier (lit "") (by decide)).2.1⟩,
    ⟨(mask_short_identifier (lit "jti123") (by decide)).1,
      (mask_short_identifier (lit "jti123") (by decide)).2.1⟩⟩

/-- C8, as stated, fails at `t = "Bearer abcdefghij"` for the `"Bearer "` half
and at `t = "bearer abcdefghij"` for the `"bearer "` half: only one prefix of
each spelling is removed, so the doubled prefix leaves one behind. -/
theorem C8_counterexample :
    MaskJTI (lit "Bearer " ++ lit "Bearer abcdefghij") = some (lit "Bear...ghij") ∧
    MaskJTI (lit "Bearer abcdefghij") = some (lit "abcd...ghij") ∧
    MaskJTI (lit "Bearer " ++ lit "Bearer abcdefghij") ≠ MaskJTI (lit "Bearer abcdefghij") ∧
    MaskJTI (lit "bearer " ++ lit "bearer abcdefghij") = some (lit "bear...ghij") ∧
    MaskJTI (lit "bearer abcdefghij") = some (lit "abcd...ghij") ∧
    MaskJTI (lit "bearer " ++ lit "bearer abcdefghij") ≠ MaskJTI (lit "bearer abcdefghij") := by
  decide

/-- C8, amended: for every string `t` that does not itself start with
`"Bearer "`, `MaskJTI ("Bearer " ++ t) = MaskJTI t`; and when `t` does not start
with `"bearer "` either, `MaskJTI ("bearer " ++ t) = MaskJTI t`; likewise for
`MaskUserID`. -/
theorem mask_removes_bearer (t : GoString) (h1 : HasPrefix t (lit "Bearer ") = false) :
    (MaskJTI (lit "Bearer " ++ t) = MaskJTI t ∧
      MaskUserID (lit "Bearer " ++ t) = MaskUserID t) ∧
    (HasPrefix t (lit "bearer ") = false →
      MaskJTI (lit "bearer " ++ t) = MaskJTI t ∧
      MaskUserID (lit "bearer " ++ t) = MaskUserID t) := by
  have a : maskPartial (lit "Bearer " ++ t) = maskPartial t := by
    rw [maskPartial_eq, maskPartial_eq, stripBearer_Bearer, stripBearer, TrimPrefix_of_not h1]
  refine ⟨⟨a, a⟩, fun h2 => ?_⟩
  have b : maskPartial (lit "bearer " ++ t) = maskPartial t := by
    rw [maskPartial_eq, maskPartial_eq, stripBearer_bearer, stripBearer_of_not h1 h2]
  exact ⟨b, b⟩

/-- C8 at `t = "abc123def456"`: with either prefix the result is `"abc1...f456"`,
the result for `t` alone. -/
theorem mask_removes_bearer_witness :
    MaskJTI (lit "Bearer " ++ lit "abc123def456") = MaskJTI (lit "abc123def456") ∧
    MaskJTI (lit "bearer " ++ lit "abc123def456") = MaskJTI (lit "abc123def456") ∧
    MaskJTI (lit "abc123def456") = some (lit "abc1...f456") :=
  ⟨(mask_removes_bearer (lit "abc123def456") (by decide)).1.1,
    ((mask_removes_bearer (lit "abc123def456") (by decide)).2 (by decide)).1, by decide⟩

/-! ## Masking tokens (`MaskToken`) -/

/-- C6: at the input of its documented example `MaskToken` returns
`"eyJh...***REDACTED***"`, not the documented `"eyJh...REDACTED"`. -/
theorem MaskToken_documented_example :
    MaskToken (lit "eyJhbGciOiJIUzI1NiJ9.xxx") = some (lit "eyJh...***REDACTED***") ∧
    MaskToken (lit "eyJhbGciOiJIUzI1NiJ9.xxx") ≠ some (lit "eyJh...REDACTED") := by
  decide

/-- C7: for every token, `MaskToken token` is `MaskPlaceholder` when the token
has at most `MaskPreserveLen` (4) bytes, the empty token included, and otherwise
the token's first 4 bytes followed by `"..."` and `MaskPlaceholder`; hence two
tokens that agree on their first 4 bytes and on being longer than 4 bytes get
the same result, whatever their later bytes are. -/
theorem MaskToken_spec (token : GoString) :
    MaskToken token =
      some (if len token ≤ MaskPreserveLen then MaskPlaceholder
        else token.take 4 ++ lit "..." ++ MaskPlaceholder) ∧
    (token = lit "" → MaskToken token = some MaskPlaceholder) ∧
    ∀ token2 : GoString, (MaskPreserveLen < len token ↔ MaskPreserveLen < len token2) →
      token.take 4 = token2.take 4 → MaskToken token = MaskToken token2 := by
  have main : ∀ t : GoString, MaskToken t =
      some (if len t ≤ MaskPreserveLen then MaskPlaceholder
        else t.take 4 ++ lit "..." ++ MaskPlaceholder) := by
    intro t
    unfold MaskToken
    by_cases ht : t = []
    · subst ht; simp [lit_empty, len, MaskPreserveLen]
    · rw [if_neg (by simpa [lit_empty] using ht)]
      by_cases hl : len t > MaskPreserveLen
      · have h4 : 4 ≤ t.length := by
          unfold len MaskPreserveLen at hl; omega
        have e1 := slice_head t 4 h4
        simp only [Nat.cast_ofNat] at e1
        have h5 : (4 : Int) < len t := hl
        have h6 : ¬ len t ≤ 4 := by omega
        simp [h5, h6, MaskPreserveLen, e1]
      · have : len t ≤ MaskPreserveLen := by omega
        simp [hl, this]
  refine ⟨main token, ?_, ?_⟩
  · intro h; subst h; rfl
  · intro token2 h1 h3
    rw [main token, main token2, h3]
    by_cases h : MaskPreserveLen < len token
    · rw [if_neg (by omega), if_neg (by have := h1.mp h; omega)]
    · rw [if_pos (by omega), if_pos (by have := mt h1.mpr h; omega)]

/-! ## The records of `AuthAllow` and `AuthDenyWithUser` -/

/-- C3, as stated, fails at `jti = "abcd...wxyz"`: `MaskJTI` returns this
non-empty identifier unchanged, and with the default configuration the one
record that `AuthAllow`, and the one that `AuthDenyWithUser`, passes to the
handler carries it as its `token.jti` value. -/
theorem C3_counterexample :
    lit "abcd...wxyz" ≠ lit "" ∧
    MaskJTI (lit "abcd...wxyz") = some (lit "abcd...wxyz") ∧
    ((New none (lit "")).AuthAllow (lit "GET") (lit "/api/v1/me") (lit "api.example.com")
        (lit "550e8400-e29b-41d4-a716-446655440000") (lit "kakao") (lit "abcd...wxyz")
        1500000).map (fun rs => rs.map (fun r => r.values (lit "token.jti")))
      = some [[lit "abcd...wxyz"]] ∧
    ((New none (lit "")).AuthDenyWithUser (lit "GET") (lit "/api/v1/me")
        (lit "api.example.com") (lit "550e8400-e29b-41d4-a716-446655440000")
        (lit "abcd...wxyz") (lit "blacklisted") 1500000 none).map
        (fun rs => rs.map (fun r => r.values (lit "token.jti")))
      = some [[lit "abcd...wxyz"]] := by
  decide

/-- C3, amended: `AuthAllow` and `AuthDenyWithUser` never panic; each passes one
record to the log handler when the configured level admits `Info`, respectively
`Warn`, and none otherwise; every record passed carries exactly one `token.jti`
attribute and its value, as given to the handler, is `MaskJTI jti`; and
`MaskJTI jti` differs from `jti` for every `jti` (the empty one included) except
those of exactly 11 bytes whose bytes 4 to 6 are `"..."`, which `MaskJTI`
returns unchanged. How the handler encodes the value in the output line is not
part of the statement. -/
theorem audit_jti_masked (cfg : Option Config)
    (environmentVar method path host userID provider jti reason : GoString)
    (duration : Int) (err : Option GoString) :
    (∃ m, MaskJTI jti = some m ∧
      (∃ rs, (New cfg environmentVar).AuthAllow method path host userID provider jti duration
          = some rs ∧
        rs.length = (if (New cfg environmentVar).minLevel ≤ LevelInfo then 1 else 0) ∧
        ∀ r ∈ rs, r.values (lit "token.jti") = [m]) ∧
      (∃ rs, (New cfg environmentVar).AuthDenyWithUser method path host userID jti reason
          duration err = some rs ∧
        rs.length = (if (New cfg environmentVar).minLevel ≤ LevelWarn then 1 else 0) ∧
        ∀ r ∈ rs, r.values (lit "token.jti") = [m])) ∧
    (MaskJTI jti = some jti ↔ jti.length = 11 ∧ (jti.drop 4).take 3 = lit "...") ∧
    (jti = lit "" → MaskJTI jti ≠ some jti) := by
  refine ⟨⟨maskStripped (stripBearer jti), maskPartial_eq jti, ?_, ?_⟩,
    maskPartial_fixed_iff jti, ?_⟩
  · by_cases hl : (New cfg environmentVar).minLevel ≤ LevelInfo
    · have hl2 : (New cfg environmentVar).minLevel ≤ 0 := hl
      simp +decide [hl, hl2, Logger.AuthAllow, Logger.WithUser, MaskUserID, MaskJTI,
        maskPartial_eq, Record.values, Logger.WithDuration, Logger.WithRequest, Logger.With,
        Logger.Info, Logger.log, LevelInfo, stringValues_append, stringValues_cons_string,
        stringValues_cons_group, stringValues_nil, stringValues_New]
    · have hl2 : ¬ (New cfg environmentVar).minLevel ≤ 0 := hl
      simp +decide [hl, hl2, Logger.AuthAllow, Logger.WithUser, MaskUserID, MaskJTI,
        maskPartial_eq, Logger.WithDuration, Logger.WithRequest, Logger.With, Logger.Info,
        Logger.log, LevelInfo]
  · by_cases hl : (New cfg environmentVar).minLevel ≤ LevelWarn
    · have hl2 : (New cfg environmentVar).minLevel ≤ 4 := hl
      cases err <;>
        simp +decide [hl, hl2, Logger.AuthDenyWithUser, Logger.WithUser, MaskUserID, MaskJTI,
          maskPartial_eq, Record.values, Logger.WithDuration, Logger.WithRequest, Logger.With,
          Logger.Warn, Logger.log, LevelWarn, stringValues_append, stringValues_cons_string,
          stringValues_cons_group, stringValues_nil, stringValues_New]
    · have hl2 : ¬ (New cfg environmentVar).minLevel ≤ 4 := hl
      cases err <;>
        simp +decide [hl, hl2, Logger.AuthDenyWithUser, Logger.WithUser, MaskUserID, MaskJTI,
          maskPartial_eq, Logger.WithDuration, Logger.WithRequest, Logger.With, Logger.Warn,
          Logger.log, LevelWarn]
  · intro h; subst h; decide

/-! ## The credential verifier (`NewVerifier`, `Verify`) -/

/-- C4: `NewVerifier` returns an error if and only if `secretKey` or `algorithm`
is blank after trimming whitespace, whatever the other arguments are; it
succeeds for `"secret"` with `"HS256"`, and fails for `""` or `"   "` as
`secretKey` and for `""` as `algorithm`. -/
theorem NewVerifier_error_iff (secretKey algorithm issuer audience : GoString) (clockSkew : Int)
    (requiredScope : GoString) :
    ((∃ e, NewVerifier secretKey algorithm issuer audience clockSkew requiredScope
        = Except.error e) ↔
      (TrimSpace secretKey = lit "" ∨ TrimSpace algorithm = lit "")) ∧
    ((∃ v, NewVerifier secretKey algorithm issuer audience clockSkew requiredScope
        = Except.ok v) ↔
      (TrimSpace secretKey ≠ lit "" ∧ TrimSpace algorithm ≠ lit "")) ∧
    (∃ v, NewVerifier (lit "secret") (lit "HS256") issuer audience clockSkew requiredScope
      = Except.ok v) ∧
    (∃ e, NewVerifier (lit "") algorithm issuer audience clockSkew requiredScope
      = Except.error e) ∧
    (∃ e, NewVerifier (lit "   ") algorithm issuer audience clockSkew requiredScope
      = Except.error e) ∧
    (∃ e, NewVerifier secretKey (lit "") issuer audience clockSkew requiredScope
      = Except.error e) := by
  have general : ∀ sk alg : GoString,
      ((∃ e, NewVerifier sk alg issuer audience clockSkew requiredScope = Except.error e) ↔
        (TrimSpace sk = lit "" ∨ TrimSpace alg = lit "")) ∧
      ((∃ v, NewVerifier sk alg issuer audience clockSkew requiredScope = Except.ok v) ↔
        (TrimSpace sk ≠ lit "" ∧ TrimSpace alg ≠ lit "")) := by
    intro sk alg
    unfold NewVerifier
    by_cases h1 : TrimSpace sk = lit ""
    · simp [h1]
    · by_cases h2 : TrimSpace alg = lit ""
      · simp [h1, h2]
      · simp [h1, h2]
  refine ⟨(general _ _).1, (general _ _).2, ?_, ?_, ?_, ?_⟩
  · exact (general _ _).2.mpr (by decide)
  · exact (general _ _).1.mpr (Or.inl (by decide))
  · exact (general _ _).1.mpr (Or.inl (by decide))
  · exact (general _ _).1.mpr (Or.inr (by decide))

/-- C5: for a verifier built by `NewVerifier` with a non-empty `requiredScope`
and a correctly signed token that passes every other check (credential present,
not expired, issuer and audience as configured, subject present), `Verify`
succeeds when the scope claim, split on whitespace, contains `requiredScope`,
and fails with `InsufficientScope` when it does not. -/
theorem Verify_required_scope (parse : GoString → GoString → GoString → Option TokenClaims)
    (now : Int) (secretKey algorithm issuer audience : GoString) (clockSkew : Int)
    (requiredScope : GoString) (v : Verifier) (raw : GoString) (c : TokenClaims)
    (expiresAt : Int)
    (hv : NewVerifier secretKey algorithm issuer audience clockSkew requiredScope = Except.ok v)
    (hscope : requiredScope ≠ lit "")
    (htoken : stripBearerFold raw ≠ lit "")
    (hsigned : parse secretKey algorithm (stripBearerFold raw) = some c)
    (hexp : c.exp = some expiresAt) (hnow : now ≤ expiresAt + clockSkew)
    (hiss : issuer = lit "" ∨ c.iss = issuer)
    (haud : audience = lit "" ∨ audience ∈ c.aud)
    (hsub : c.sub ≠ lit "") :
    (requiredScope ∈ Fields c.scope →
      v.Verify parse now raw =
        Except.ok
          { subject := c.sub, tokenID := c.jti, expiresAt := expiresAt, issuer := c.iss,
            audience := c.aud, scopes := Fields c.scope }) ∧
    (requiredScope ∉ Fields c.scope →
      v.Verify parse now raw = Except.error VerificationError.InsufficientScope) := by
  have hv2 : v =
      { secretKey := secretKey, algorithm := algorithm, issuer := issuer, audience := audience,
        clockSkew := clockSkew, requiredScope := requiredScope } := by
    unfold NewVerifier at hv
    split at hv
    · cases hv
    · split at hv
      · cases hv
      · injection hv with hv; exact hv.symm
  subst hv2
  have hi : ¬ (issuer ≠ lit "" ∧ c.iss ≠ issuer) := by
    rcases hiss with h | h <;> simp [h]
  have ha : ¬ (audience ≠ lit "" ∧ audience ∉ c.aud) := by
    rcases haud with h | h <;> simp [h]
  constructor
  · intro hin
    simp only [Verifier.Verify, if_neg htoken, hsigned, hexp]
    simp [hnow, hi, ha, hsub, hin]
  · intro hnot
    simp only [Verifier.Verify, if_neg htoken, hsigned, hexp]
    simp [hnow, hi, ha, hsub, hnot, hscope]

/-- C5 on the cases of `TestVerifier_Verify`: with required scope `"read"`, the
token with scope `"read write"` is accepted and the token with scope `"write"`
is refused with `InsufficientScope`. -/
theorem Verify_required_scope_witness :
    (∃ v, NewVerifier (lit "secret") (lit "HS256") (lit "eco2") (lit "eco2-api") 60 (lit "read")
        = Except.ok v ∧
      v.Verify (testParse (lit "read write")) 1000 (lit "Bearer header.payload.signature") =
        Except.ok
          { subject := lit "user123", tokenID := lit "jti123", expiresAt := 4600,
            issuer := lit "eco2", audience := [lit "eco2-api"],
            scopes := [lit "read", lit "write"] } ∧
      v.Verify (testParse (lit "write")) 1000 (lit "Bearer header.payload.signature") =
        Except.error VerificationError.InsufficientScope) :=
  ⟨{ secretKey := lit "secret", algorithm := lit "HS256", issuer := lit "eco2",
      audience := lit "eco2-api", clockSkew := 60, requiredScope := lit "read" },
    rfl,
    (Verify_required_scope (testParse (lit "read write")) 1000 (lit "secret") (lit "HS256")
      (lit "eco2") (lit "eco2-api") 60 (lit "read") _ (lit "Bearer header.payload.signature")
      (testClaims (lit "read write")) 4600 rfl (by decide) (by decide) (by decide) rfl
      (by decide) (Or.inr rfl) (Or.inr (by decide)) (by decide)).1 (by decide),
    (Verify_required_scope (testParse (lit "write")) 1000 (lit "secret") (lit "HS256")
      (lit "eco2") (lit "eco2-api") 60 (lit "read") _ (lit "Bearer header.payload.signature")
      (testClaims (lit "write")) 4600 rfl (by decide) (by decide) (by decide) rfl
      (by decide) (Or.inr rfl) (Or.inr (by decide)) (by decide)).2 (by decide)⟩

end ExtAuthz
